import Mathlib

/-!
Shallow embedding of the intent-classification core of
`src/telegram_bot.py` (v8.0): the `InputValidator`,
`FinancialIntentAnalyzer`, `TimeParser`, `IntentDetector` and
`ChatSessionManager` classes, together with theorems settling the
frozen claims about them.

Conventions of the embedding:
* Python `str` is modelled by Lean `String` (a list of Unicode code
  points).  `str.lower()`, `str.strip()` and the substring operator
  `in` are modelled directly; `lower` maps ASCII letters and the
  Turkish uppercase letters that occur in the analyzed keyword sets.
* Python `re` patterns are modelled by an explicit regular-expression
  syntax `RE` whose backtracking matcher `mre` lists candidate matches
  in Python's preference order (leftmost position first, then
  left-biased alternation, greedy/lazy quantifiers respecting their
  Python order).  Every quantified subexpression of the patterns in
  the source is a single-character class, so bounded enumeration of
  repetition counts is exact.
* `datetime` values (timezone-localized wall-clock times) are modelled
  as `Int` microseconds since an arbitrary epoch midnight; `timedelta`
  arithmetic is plain addition, `replace(hour, minute, second=0,
  microsecond=0)` is arithmetic modulo the day length and fails (as
  `datetime.replace` raises `ValueError`) when the field is out of
  range.  Python `float` amounts and confidence scores are modelled
  exactly over `ℚ` (the decimal literals of the source are exact
  decimals; IEEE-754 rounding of sums is abstracted).
-/

/-! ## Python string primitives -/

/-- Characters treated as whitespace by `str.strip` and by the regex
class `\s` (ASCII fragment, which covers all analyzed inputs). -/
def pyIsSpace (c : Char) : Bool :=
  c = ' ' || c = '\t' || c = '\n' || c = '\r' || c = '\x0b' || c = '\x0c'

/-- ASCII case folding used for `re.IGNORECASE` matching. -/
def foldChar (c : Char) : Char :=
  if 'A' ≤ c ∧ c ≤ 'Z' then Char.ofNat (c.toNat + 32) else c

/-- Lowering of one character, per Python `str.lower()`: ASCII letters,
the Turkish uppercase letters, and the special case `'İ'` which lowers
to the two code points `i` + combining dot above.  Other characters
(none of which occur in the keyword sets of the source) are kept. -/
def pyLowerChar (c : Char) : List Char :=
  if c = 'İ' then ['i', '̇']
  else if 'A' ≤ c ∧ c ≤ 'Z' then [Char.ofNat (c.toNat + 32)]
  else if c = 'Ç' then ['ç']
  else if c = 'Ğ' then ['ğ']
  else if c = 'Ö' then ['ö']
  else if c = 'Ş' then ['ş']
  else if c = 'Ü' then ['ü']
  else [c]

/-- Python `str.lower()`. -/
def pyLower (s : String) : String :=
  ⟨s.data.flatMap pyLowerChar⟩

/-- Python `str.strip()`: remove leading and trailing whitespace. -/
def pyStripList (l : List Char) : List Char :=
  ((l.dropWhile pyIsSpace).reverse.dropWhile pyIsSpace).reverse

/-- Python `str.strip()` on strings. -/
def pyStrip (s : String) : String :=
  ⟨pyStripList s.data⟩

/-- Python substring test `needle in hay` on character lists. -/
def listInfix (needle : List Char) : List Char → Bool
  | [] => needle.isEmpty
  | c :: t => needle.isPrefixOf (c :: t) || listInfix needle t

/-- Python substring test `needle in hay` on strings. -/
def pyIn (needle hay : String) : Bool :=
  listInfix needle.data hay.data

/-! ## Regular expressions

A syntax mirroring the `re` patterns of the source.  Quantifiers are
restricted to single-character classes (`rep`), which is exactly the
shape every quantified subexpression of the source patterns has. -/

/-- Character classes appearing in the source patterns. -/
inductive CC where
  | digit                      -- `\d` (ASCII digits)
  | space                      -- `\s`
  | anyc                       -- `.` (any character except newline)
  | oneof (cs : List Char)     -- `[..]`
  deriving DecidableEq

/-- Does character `x` match class `c` (with optional case folding)? -/
def ccMatch (ci : Bool) (c : CC) (x : Char) : Bool :=
  match c with
  | .digit => x.isDigit
  | .space => pyIsSpace x
  | .anyc => x ≠ '\n'
  | .oneof cs => cs.contains (if ci then foldChar x else x)

/-- Regular-expression syntax. `rep c lo hi lz` is `c{lo,hi}` (with
`hi = none` for an unbounded quantifier) over a character class, lazy
when `lz` is true.  `negLook` is the negative lookahead `(?!...)`. -/
inductive RE where
  | eps
  | lit (c : Char)
  | cls (c : CC)
  | cat (a b : RE)
  | alt (a b : RE)
  | opt (a : RE)
  | rep (c : CC) (lo : Nat) (hi : Option Nat) (lz : Bool)
  | group (n : Nat) (a : RE)
  | negLook (a : RE)

/-- Captured groups: group index paired with the captured characters. -/
abbrev Caps := List (Nat × List Char)

/-- Length of the maximal prefix of `l` whose characters match `c`. -/
def maxRun (ci : Bool) (c : CC) : List Char → Nat
  | [] => 0
  | x :: xs => if ccMatch ci c x then maxRun ci c xs + 1 else 0

/-- Backtracking matcher: all ways to match `r` against a prefix of
`l`, each given as the remaining suffix plus captured groups, listed
in Python's preference order (first element = the match `re` picks). -/
def mre (ci : Bool) : RE → List Char → Caps → List (List Char × Caps)
  | .eps, l, g => [(l, g)]
  | .lit c, l, g =>
    match l with
    | [] => []
    | x :: xs =>
      if (if ci then foldChar x else x) = (if ci then foldChar c else c) then
        [(xs, g)]
      else []
  | .cls c, l, g =>
    match l with
    | [] => []
    | x :: xs => if ccMatch ci c x then [(xs, g)] else []
  | .cat a b, l, g => (mre ci a l g).flatMap (fun p => mre ci b p.1 p.2)
  | .alt a b, l, g => mre ci a l g ++ mre ci b l g
  | .opt a, l, g => mre ci a l g ++ [(l, g)]
  | .rep c lo hi lz, l, g =>
    let run := maxRun ci c l
    let cap := match hi with | none => run | some h => min run h
    if cap < lo then []
    else
      let ks := List.range' lo (cap - lo + 1)
      (if lz then ks else ks.reverse).map (fun k => (l.drop k, g))
  | .group n a, l, g =>
    (mre ci a l g).map (fun p => (p.1, (n, l.take (l.length - p.1.length)) :: p.2))
  | .negLook a, l, g => if (mre ci a l g).isEmpty then [(l, g)] else []

/-- `re.search` scanning from position `i`: first matching position,
returning the start index, match length and captures. -/
def searchFrom (ci : Bool) (r : RE) : Nat → List Char → Option (Nat × Nat × Caps)
  | i, l =>
    match mre ci r l [] with
    | p :: _ => some (i, l.length - p.1.length, p.2)
    | [] =>
      match l with
      | [] => none
      | _ :: xs => searchFrom ci r (i + 1) xs

/-- Python `re.search(r, s)`: leftmost match, preferred alternative. -/
def research (ci : Bool) (r : RE) (l : List Char) : Option (Nat × Nat × Caps) :=
  searchFrom ci r 0 l

/-- Characters captured by group `n` (empty if the group is absent). -/
def groupChars (caps : Caps) (n : Nat) : List Char :=
  match caps.find? (fun p => p.1 = n) with
  | some p => p.2
  | none => []

/-- Python `match.group(n)` as a string. -/
def groupStr (caps : Caps) (n : Nat) : String :=
  ⟨groupChars caps n⟩

/-- Python `re.sub(r, '', s)`: delete every non-overlapping match,
scanning left to right (an empty match deletes nothing and the scan
advances one character, as in Python). -/
def reSubAux (ci : Bool) (r : RE) : Nat → List Char → List Char
  | 0, l => l
  | fuel + 1, l =>
    match research ci r l with
    | none => l
    | some (i, len, _) =>
      l.take i ++ (if len = 0 then (l.drop i).take 1 else [])
        ++ reSubAux ci r fuel (l.drop (i + max len 1))

/-- Python `re.sub(r, '', s)` on strings. -/
def reSub (ci : Bool) (r : RE) (s : String) : String :=
  ⟨reSubAux ci r (s.data.length + 1) s.data⟩

/-- Python `re.sub(r'\s+', ' ', s)`: collapse whitespace runs to a
single space.  The boolean records whether the previous character was
whitespace. -/
def collapseGo : Bool → List Char → List Char
  | _, [] => []
  | prevSp, c :: cs =>
    if pyIsSpace c then
      (if prevSp then [] else [' ']) ++ collapseGo true cs
    else c :: collapseGo false cs

/-- Whitespace collapsing on strings. -/
def collapseWS (s : String) : String :=
  ⟨collapseGo false s.data⟩

/-- Sequencing a list of regular expressions. -/
def reSeq (rs : List RE) : RE :=
  match rs with
  | [] => .eps
  | [r] => r
  | r :: rest => .cat r (reSeq rest)

/-- Literal string as a regular expression. -/
def reStr (s : String) : RE :=
  reSeq (s.data.map RE.lit)

/-- Left-biased alternation of literal strings, mirroring `(w1|w2|…)`. -/
def altStrs (ws : List String) : RE :=
  match ws with
  | [] => .eps
  | [w] => reStr w
  | w :: rest => .alt (reStr w) (altStrs rest)

/-! ## `InputValidator` (src/telegram_bot.py, lines 305-344) -/

/-- Numeric value of a digit string (`int(s)` on the all-digit group
captures produced by the time patterns). -/
def digitsVal (l : List Char) : Nat :=
  l.foldl (fun n c => n * 10 + (c.toNat - '0'.toNat)) 0

/-- Python `float(s)` restricted to strings over digits and `'.'`, the
only alphabet reaching it in `validate_amount` after cleaning: at most
one dot and at least one digit are required (`float` raises otherwise),
and the value is the exact decimal. -/
def parseFloat (s : String) : Option ℚ :=
  let l := s.data
  if ¬ l.all (fun c => c.isDigit || c = '.') then none
  else
    let ip := l.takeWhile (fun c => c ≠ '.')
    let rest := l.dropWhile (fun c => c ≠ '.')
    match rest with
    | [] => if ip = [] then none else some (digitsVal ip)
    | _ :: fp =>
      if fp.contains '.' then none
      else if ip = [] ∧ fp = [] then none
      else some ((digitsVal ip : ℚ) + (digitsVal fp : ℚ) / (10 : ℚ) ^ fp.length)

/-- `InputValidator.validate_amount`: strip all characters except
digits, dots and commas, turn commas into dots, parse, and range-check
the result (positive, at most ten million). -/
def validate_amount (amount_str : String) : Option ℚ × Option String :=
  let cleaned : List Char :=
    (amount_str.data.filter (fun c => c.isDigit || c = '.' || c = ',')).map
      (fun c => if c = ',' then '.' else c)
  match parseFloat ⟨cleaned⟩ with
  | none => (none, some "Geçersiz sayı formatı")
  | some amount =>
    if amount ≤ 0 then (none, some "Miktar sıfırdan büyük olmalıdır")
    else if amount > 10000000 then (none, some "Miktar çok büyük")
    else (some amount, none)

/-- Characters removed by `sanitize_description`
(the class `[<>"\'\`\n\r\t]`). -/
def isBadChar (c : Char) : Bool :=
  c = '<' || c = '>' || c = '"' || c = Char.ofNat 39 || c = Char.ofNat 96 ||
  c = '\n' || c = '\r' || c = '\t'

/-- `InputValidator.sanitize_description`: drop dangerous characters,
truncate to 200 characters, strip. -/
def sanitize_description (description : String) : String :=
  pyStrip ⟨(description.data.filter (fun c => ¬ isBadChar c)).take 200⟩

/-! ## Data model enums (src/telegram_bot.py, lines 49-80) -/

/-- `IntentType` enum. -/
inductive IntentType where
  | FINANCIAL | FINANCIAL_REPORT | REMINDER | CALENDAR | RESET_CHAT | HELP | CHAT
  deriving DecidableEq

/-- `AccountType` enum. -/
inductive AccountType where
  | araba | emlak | kisisel
  deriving DecidableEq

/-- `TransactionType` enum. -/
inductive TransactionType where
  | gelir | gider
  deriving DecidableEq

/-- `TransactionType(s)` on the two strings `_determine_transaction_type`
produces (the enum constructor raises on any other string, which that
function never returns). -/
def TransactionType.ofStr (s : String) : TransactionType :=
  if s = "gelir" then .gelir else .gider

/-- `AccountType(s)` on the three strings `_determine_account_type`
produces. -/
def AccountType.ofStr (s : String) : AccountType :=
  if s = "araba" then .araba else if s = "emlak" then .emlak else .kisisel

/-- `FinancialTransaction` dataclass. -/
structure FinancialTransaction where
  account_type : AccountType
  transaction_type : TransactionType
  amount : ℚ
  category : String
  description : String
  confidence : ℚ
  deriving DecidableEq

/-! ## `FinancialIntentAnalyzer` (src/telegram_bot.py, lines 347-495) -/

/-- `false_positive_patterns` (lines 349-355), one `RE` per source
regex, in order:
`\d+\s*tl.*?(not|kağıt|para birimi|değer|fiyat|gibi|benzeri)`,
`(kaç|ne kadar|hangi|neden).*?\d+\s*tl`,
`\d+\s*tl.*?(değerinde|kadar|civarında)(?!\s+(aldım|sattım|ödedim|kazandım))`,
`sadece.*?\d+\s*tl`,
`\d+\s*tl.*?(örnek|mesela|diyelim)`. -/
def false_positive_patterns : List RE :=
  [ reSeq [.rep .digit 1 none false, .rep .space 0 none false, reStr "tl",
      .rep .anyc 0 none true,
      .group 1 (altStrs ["not", "kağıt", "para birimi", "değer", "fiyat", "gibi", "benzeri"])],
    reSeq [.group 1 (altStrs ["kaç", "ne kadar", "hangi", "neden"]),
      .rep .anyc 0 none true,
      .rep .digit 1 none false, .rep .space 0 none false, reStr "tl"],
    reSeq [.rep .digit 1 none false, .rep .space 0 none false, reStr "tl",
      .rep .anyc 0 none true,
      .group 1 (altStrs ["değerinde", "kadar", "civarında"]),
      .negLook (reSeq [.rep .space 1 none false,
        .group 2 (altStrs ["aldım", "sattım", "ödedim", "kazandım"])])],
    reSeq [reStr "sadece", .rep .anyc 0 none true,
      .rep .digit 1 none false, .rep .space 0 none false, reStr "tl"],
    reSeq [.rep .digit 1 none false, .rep .space 0 none false, reStr "tl",
      .rep .anyc 0 none true,
      .group 1 (altStrs ["örnek", "mesela", "diyelim"])] ]

/-- `income_keywords` (lines 357-360). -/
def income_keywords : List String :=
  ["kazandım", "aldım", "gelir", "sattım", "komisyon", "ödeme aldım",
   "satış yaptım", "para kazandım", "geldi", "kira geliri"]

/-- `expense_keywords` (lines 362-365). -/
def expense_keywords : List String :=
  ["harcadım", "ödedim", "aldım", "masraf", "gider", "fatura",
   "para harcadım", "satın aldım", "ödeme yaptım"]

/-- `account_keywords` (lines 367-371), in dict insertion order. -/
def account_keywords : List (String × List String) :=
  [("araba", ["araba", "galeri", "otomobil", "civic", "bmw", "mercedes", "araç", "oto"]),
   ("emlak", ["emlak", "ev", "daire", "kiralama", "satış komisyonu", "gayrimenkul"]),
   ("kisisel", ["kişisel", "özel", "kendi"])]

/-- `categories` (lines 373-386): per account and direction. -/
def categoriesFor (account_type transaction_type : String) : List String :=
  if account_type = "araba" then
    if transaction_type = "gelir" then ["satış", "servis", "tamir", "diğer"]
    else ["alım", "yakıt", "bakım", "kira", "personel", "reklam", "sigorta", "diğer"]
  else if account_type = "emlak" then
    if transaction_type = "gelir" then
      ["satış_komisyonu", "kiralama_komisyonu", "danışmanlık", "emlak_satış", "diğer"]
    else ["pazarlama", "ulaşım", "ofis", "lisans", "reklam", "diğer"]
  else
    if transaction_type = "gelir" then
      ["maaş", "kira_geliri", "yatırım", "borç_ödeme", "hediye", "diğer"]
    else ["yemek", "ulaşım", "ev", "eğlence", "sağlık", "alışveriş", "fatura", "diğer"]

/-- Number of income keywords occurring in the lowered text
(`sum(1 for keyword in self.income_keywords if keyword in text)`). -/
def incomeScore (text : String) : Nat :=
  income_keywords.countP (fun k => pyIn k text)

/-- Number of expense keywords occurring in the lowered text. -/
def expenseScore (text : String) : Nat :=
  expense_keywords.countP (fun k => pyIn k text)

/-- Context words consulted by `_determine_transaction_type` on ties. -/
def tieContextWords : List String :=
  ["satış", "komisyon", "kazanç", "gelir"]

/-- `FinancialIntentAnalyzer._determine_transaction_type`
(lines 433-446). -/
def determine_transaction_type (text : String) : String :=
  if incomeScore text > expenseScore text then "gelir"
  else if expenseScore text > incomeScore text then "gider"
  else if tieContextWords.any (fun w => pyIn w text) then "gelir"
  else "gider"

/-- First key attaining the maximal value, mirroring Python `max` over
dict iteration order with `key=scores.get` (replace only on a strictly
greater score). -/
def maxKeyByVal (l : List (String × Nat)) : Option (String × Nat) :=
  match l with
  | [] => none
  | p :: ps => some (ps.foldl (fun b q => if q.2 > b.2 then q else b) p)

/-- `FinancialIntentAnalyzer._determine_account_type` (lines 448-456). -/
def determine_account_type (text : String) : String :=
  let scores := account_keywords.map
    (fun p => (p.1, p.2.countP (fun k => pyIn k text)))
  match maxKeyByVal scores with
  | some (best, s) => if s > 0 then best else "kisisel"
  | none => "kisisel"

/-- Words of a category name: `category.replace('_', ' ').split()`. -/
def categoryWords (c : String) : List String :=
  ((c.data.map (fun x => if x = '_' then ' ' else x)).splitOnP pyIsSpace).filterMap
    (fun w => if w = [] then none else some ⟨w⟩)

/-- `FinancialIntentAnalyzer._determine_category` (lines 458-471):
first non-`diğer` category one of whose words occurs in the text. -/
def determine_category (text account_type transaction_type : String) : String :=
  match (categoriesFor account_type transaction_type).find?
      (fun c => c ≠ "diğer" ∧ (categoryWords c).any (fun w => pyIn w text)) with
  | some c => c
  | none => "diğer"

/-- `FinancialIntentAnalyzer._extract_description` (lines 473-479):
remove `<amount_str>\s*tl` (case-insensitively) from the original text,
collapse whitespace, strip, sanitize, defaulting to `"İşlem"`. -/
def extract_description (text amount_str : String) : String :=
  let removed := reSub true (reSeq [reStr amount_str, .rep .space 0 none false, reStr "tl"]) text
  let cleaned := pyStrip (collapseWS removed)
  let s := sanitize_description cleaned
  if s = "" then "İşlem" else s

/-- `FinancialIntentAnalyzer._calculate_confidence` (lines 481-495). -/
def calculate_confidence (text transaction_type account_type : String) : ℚ :=
  let base : ℚ := 1/2
  let c1 :=
    if transaction_type = "gelir" ∧
        (["kazandım", "sattım", "gelir"].any (fun k => pyIn k text)) then base + 3/10
    else if transaction_type = "gider" ∧
        (["harcadım", "ödedim", "aldım"].any (fun k => pyIn k text)) then base + 3/10
    else base
  let c2 := if account_type ≠ "kisisel" then c1 + 1/5 else c1
  if c2 ≤ 1 then c2 else 1

/-- The amount pattern `(\d+(?:[.,]\d+)?)\s*tl` of
`detect_financial_intent` (line 399). -/
def amountRE : RE :=
  reSeq [.group 1 (reSeq [.rep .digit 1 none false,
            .opt (reSeq [.cls (.oneof ['.', ',']), .rep .digit 1 none false])]),
         .rep .space 0 none false, reStr "tl"]

/-- Group 1 of the first amount match in the lowered text, if any. -/
def amountGroup (text : String) : Option String :=
  match research false amountRE text.data with
  | some (_, _, caps) => some (groupStr caps 1)
  | none => none

/-- Does some false-positive pattern match the lowered text? -/
def falsePositiveHit (text : String) : Bool :=
  false_positive_patterns.any (fun r => (research false r text.data).isSome)

/-- Replace commas by dots (`amount_match.group(1).replace(',', '.')`). -/
def commaDot (s : String) : String :=
  ⟨s.data.map (fun c => if c = ',' then '.' else c)⟩

/-- `FinancialIntentAnalyzer.detect_financial_intent` (lines 388-431).
The `if not amount` truthiness test rejects both `None` and `0.0`. -/
def detect_financial_intent (text : String) : Option FinancialTransaction :=
  let text_lower := pyStrip (pyLower text)
  if falsePositiveHit text_lower then none
  else
    match amountGroup text_lower with
    | none => none
    | some g =>
      let amount_str := commaDot g
      match (validate_amount amount_str).1 with
      | none => none
      | some amount =>
        if amount = 0 then none
        else
          let transaction_type := determine_transaction_type text_lower
          if transaction_type = "" then none
          else
            let account_type := determine_account_type text_lower
            let category := determine_category text_lower account_type transaction_type
            let description := extract_description text amount_str
            let confidence := calculate_confidence text_lower transaction_type account_type
            some ⟨AccountType.ofStr account_type, TransactionType.ofStr transaction_type,
                  amount, category, description, confidence⟩

/-! ## `TimeParser` (src/telegram_bot.py, lines 498-598)

Wall-clock datetimes are `Int` microseconds from an epoch midnight. -/

/-- Microseconds per second. -/
def usSec : Int := 1000000

/-- Microseconds per minute. -/
def usMin : Int := 60000000

/-- Microseconds per hour. -/
def usHour : Int := 3600000000

/-- Microseconds per day. -/
def usDay : Int := 86400000000

/-- The `hour` attribute of a datetime (always in `0..23`). -/
def hourOf (t : Int) : Int := t % usDay / usHour

/-- The `minute` attribute of a datetime (always in `0..59`). -/
def minuteOf (t : Int) : Int := t % usHour / usMin

/-- `dt.replace(hour=h, minute=m, second=0, microsecond=0)`;
`datetime.replace` raises `ValueError` when a field is out of range,
modelled by `none`. -/
def replaceHM (t : Int) (h m : Nat) : Option Int :=
  if h ≤ 23 ∧ m ≤ 59 then
    some (t - t % usDay + (h : Int) * usHour + (m : Int) * usMin)
  else none

/-- Proleptic-Gregorian date of a day index (days since the epoch,
which the model places at a March-anchored cycle origin); returns
`(year, month, day)`.  Floor divisions make the computation valid for
all day indices. -/
def civilFromDays (z0 : Int) : Int × Int × Int :=
  let z := z0 + 719468
  let era := z / 146097
  let doe := z - era * 146097
  let yoe := (doe - doe / 1460 + doe / 36524 - doe / 146096) / 365
  let y := yoe + era * 400
  let doy := doe - (365 * yoe + yoe / 4 - yoe / 100)
  let mp := (5 * doy + 2) / 153
  let d := doy - (153 * mp + 2) / 5 + 1
  let m := mp + (if mp < 10 then 3 else -9)
  (y + (if m ≤ 2 then 1 else 0), m, d)

/-- Day index of a proleptic-Gregorian date (inverse of
`civilFromDays`). -/
def daysFromCivil (y0 m d : Int) : Int :=
  let y := y0 - (if m ≤ 2 then 1 else 0)
  let era := y / 400
  let yoe := y - era * 400
  let doy := (153 * (m + (if m > 2 then -3 else 9)) + 2) / 5 + d - 1
  let doe := yoe * 365 + yoe / 4 - yoe / 100 + doy
  era * 146097 + doe - 719468

/-- Gregorian leap-year test. -/
def isLeapYear (y : Int) : Bool :=
  y % 4 = 0 ∧ (y % 100 ≠ 0 ∨ y % 400 = 0)

/-- Number of days in a month. -/
def daysInMonth (y m : Int) : Int :=
  if m = 2 then (if isLeapYear y then 29 else 28)
  else if m = 4 ∨ m = 6 ∨ m = 9 ∨ m = 11 then 30
  else 31

/-- `TimeParser._tomorrow_with_time`:
`(now + timedelta(days=1)).replace(hour, minute, 0, 0)`. -/
def tomorrow_with_time (now : Int) (caps : Caps) : Option Int :=
  replaceHM (now + usDay) (digitsVal (groupChars caps 1)) (digitsVal (groupChars caps 2))

/-- `TimeParser._today_with_time`: `now.replace(hour, minute, 0, 0)`. -/
def today_with_time (now : Int) (caps : Caps) : Option Int :=
  replaceHM now (digitsVal (groupChars caps 1)) (digitsVal (groupChars caps 2))

/-- `TimeParser._time_only` (same computation as `_today_with_time`). -/
def time_only (now : Int) (caps : Caps) : Option Int :=
  replaceHM now (digitsVal (groupChars caps 1)) (digitsVal (groupChars caps 2))

/-- `TimeParser._tomorrow_hour`: tomorrow at the bare hour. -/
def tomorrow_hour (now : Int) (caps : Caps) : Option Int :=
  replaceHM (now + usDay) (digitsVal (groupChars caps 1)) 0

/-- `TimeParser._today_hour`: today at the bare hour. -/
def today_hour (now : Int) (caps : Caps) : Option Int :=
  replaceHM now (digitsVal (groupChars caps 1)) 0

/-- `TimeParser._hour_only` (same computation as `_today_hour`). -/
def hour_only (now : Int) (caps : Caps) : Option Int :=
  replaceHM now (digitsVal (groupChars caps 1)) 0

/-- `TimeParser._hours_later`: `now + timedelta(hours=n)`. -/
def hours_later (now : Int) (caps : Caps) : Option Int :=
  some (now + (digitsVal (groupChars caps 1) : Int) * usHour)

/-- `TimeParser._minutes_later`: `now + timedelta(minutes=n)`. -/
def minutes_later (now : Int) (caps : Caps) : Option Int :=
  some (now + (digitsVal (groupChars caps 1) : Int) * usMin)

/-- `TimeParser._date_with_time`: `now.replace(day, month, hour,
minute, 0, 0)`, rolled to the next year if in the past; a `ValueError`
from either `replace` yields `None`. -/
def date_with_time (now : Int) (caps : Caps) : Option Int :=
  let d : Int := digitsVal (groupChars caps 1)
  let m : Int := digitsVal (groupChars caps 2)
  let h := digitsVal (groupChars caps 3)
  let mi := digitsVal (groupChars caps 4)
  let y := (civilFromDays (now / usDay)).1
  if 1 ≤ m ∧ m ≤ 12 ∧ 1 ≤ d ∧ d ≤ daysInMonth y m ∧ h ≤ 23 ∧ mi ≤ 59 then
    let target := daysFromCivil y m d * usDay + (h : Int) * usHour + (mi : Int) * usMin
    if target < now then
      let y' := (civilFromDays (target / usDay)).1 + 1
      if d ≤ daysInMonth y' m then
        some (daysFromCivil y' m d * usDay + (h : Int) * usHour + (mi : Int) * usMin)
      else none
    else some target
  else none

/-- One entry of `TimeParser.patterns`: the regex and the associated
time transform. -/
structure TimePattern where
  re : RE
  func : Int → Caps → Option Int

/-- Pattern 1, `yarın\s+(?:saat\s+)?(\d{1,2}):(\d{2})`. -/
def tpTomorrowWithTime : TimePattern :=
  ⟨reSeq [reStr "yarın", .rep .space 1 none false,
      .opt (reSeq [reStr "saat", .rep .space 1 none false]),
      .group 1 (.rep .digit 1 (some 2) false), .lit ':',
      .group 2 (.rep .digit 2 (some 2) false)], tomorrow_with_time⟩

/-- Pattern 2, `bugün\s+(?:saat\s+)?(\d{1,2}):(\d{2})`. -/
def tpTodayWithTime : TimePattern :=
  ⟨reSeq [reStr "bugün", .rep .space 1 none false,
      .opt (reSeq [reStr "saat", .rep .space 1 none false]),
      .group 1 (.rep .digit 1 (some 2) false), .lit ':',
      .group 2 (.rep .digit 2 (some 2) false)], today_with_time⟩

/-- Pattern 3, `(?:saat\s+)?(\d{1,2}):(\d{2})` (bare HH:MM). -/
def tpTimeOnly : TimePattern :=
  ⟨reSeq [.opt (reSeq [reStr "saat", .rep .space 1 none false]),
      .group 1 (.rep .digit 1 (some 2) false), .lit ':',
      .group 2 (.rep .digit 2 (some 2) false)], time_only⟩

/-- Pattern 4, `yarın\s+(\d{1,2})\'?(?:de|da|te|ta)`. -/
def tpTomorrowHour : TimePattern :=
  ⟨reSeq [reStr "yarın", .rep .space 1 none false,
      .group 1 (.rep .digit 1 (some 2) false), .opt (.lit (Char.ofNat 39)),
      altStrs ["de", "da", "te", "ta"]], tomorrow_hour⟩

/-- Pattern 5, `bugün\s+(\d{1,2})\'?(?:de|da|te|ta)`. -/
def tpTodayHour : TimePattern :=
  ⟨reSeq [reStr "bugün", .rep .space 1 none false,
      .group 1 (.rep .digit 1 (some 2) false), .opt (.lit (Char.ofNat 39)),
      altStrs ["de", "da", "te", "ta"]], today_hour⟩

/-- Pattern 6, `(\d{1,2})\'?(?:de|da|te|ta)`. -/
def tpHourOnly : TimePattern :=
  ⟨reSeq [.group 1 (.rep .digit 1 (some 2) false), .opt (.lit (Char.ofNat 39)),
      altStrs ["de", "da", "te", "ta"]], hour_only⟩

/-- Pattern 7, `(\d+)\s+saat\s+sonra`. -/
def tpHoursLater : TimePattern :=
  ⟨reSeq [.group 1 (.rep .digit 1 none false), .rep .space 1 none false,
      reStr "saat", .rep .space 1 none false, reStr "sonra"], hours_later⟩

/-- Pattern 8, `(\d+)\s+dakika\s+sonra`. -/
def tpMinutesLater : TimePattern :=
  ⟨reSeq [.group 1 (.rep .digit 1 none false), .rep .space 1 none false,
      reStr "dakika", .rep .space 1 none false, reStr "sonra"], minutes_later⟩

/-- Pattern 9, `(\d{1,2})\.(\d{1,2})\.\s+saat\s+(\d{1,2}):(\d{2})`. -/
def tpDateWithTime : TimePattern :=
  ⟨reSeq [.group 1 (.rep .digit 1 (some 2) false), .lit '.',
      .group 2 (.rep .digit 1 (some 2) false), .lit '.',
      .rep .space 1 none false, reStr "saat", .rep .space 1 none false,
      .group 3 (.rep .digit 1 (some 2) false), .lit ':',
      .group 4 (.rep .digit 2 (some 2) false)], date_with_time⟩

/-- `TimeParser.patterns` (lines 501-511), in source order. -/
def timePatterns : List TimePattern :=
  [tpTomorrowWithTime, tpTodayWithTime, tpTimeOnly, tpTomorrowHour,
   tpTodayHour, tpHourOnly, tpHoursLater, tpMinutesLater, tpDateWithTime]

/-- `TimeParser._is_valid_time` (lines 582-598).  The one-day
roll-forward rebinds only the local variable (Python `datetime` is
immutable and `parsed_time += …` does not escape this method), so the
rolled value `p` is used by the subsequent checks here but never
reaches the caller. -/
def is_valid_time (parsed_time now : Int) (text : String) : Bool :=
  let p :=
    if parsed_time < now - 5 * usMin ∧ ¬ pyIn "yarın" text ∧ ¬ pyIn "sonra" text then
      parsed_time + usDay
    else parsed_time
  if p > now + 365 * usDay then false
  else decide (0 ≤ hourOf p ∧ hourOf p ≤ 23 ∧ 0 ≤ minuteOf p ∧ minuteOf p ≤ 59)

/-- One iteration of the pattern loop of `parse_time_from_text`: on a
regex match, compute the time, validate it, and produce the parsed
time, the residual message (match removed from the original text,
stripped, whitespace collapsed) and the matched substring. -/
def tryPattern (now : Int) (text text_lower : String) (tp : TimePattern) :
    Option (Int × String × String) :=
  match research false tp.re text_lower.data with
  | none => none
  | some (i, len, caps) =>
    match tp.func now caps with
    | none => none
    | some parsed_time =>
      if is_valid_time parsed_time now text_lower then
        some (parsed_time,
              collapseWS (pyStrip (reSub true tp.re text)),
              ⟨(text_lower.data.drop i).take len⟩)
      else none

/-- `TimeParser.parse_time_from_text` (lines 513-539): first pattern
that matches and validates wins; otherwise `(None, text, None)`. -/
def parse_time_from_text (now : Int) (text : String) :
    Option Int × String × Option String :=
  let text_lower := pyStrip (pyLower text)
  match timePatterns.findSome? (tryPattern now text text_lower) with
  | some (t, message, matched) => (some t, message, some matched)
  | none => (none, text, none)

/-! ## `IntentDetector` (src/telegram_bot.py, lines 601-670) -/

/-- Payload carried by an `IntentResult` (`Any` in the source: `None`,
a `FinancialTransaction`, or the raw text). -/
inductive PData where
  | none
  | financial (tx : FinancialTransaction)
  | text (s : String)
  deriving DecidableEq

/-- `IntentResult` dataclass. -/
structure IntentResult where
  intent : IntentType
  data : PData
  confidence : ℚ
  deriving DecidableEq

/-- `IntentDetector._is_financial_report_request`. -/
def is_financial_report_request (text : String) : Bool :=
  ["ne kadar", "toplam", "özet", "rapor", "durum", "hesap", "kâr", "zarar"].any
    (fun k => pyIn k text)

/-- The `time_patterns` regexes of `_get_reminder_confidence`:
`\d{1,2}:\d{2}` plus five literal words. -/
def reminderTimePatterns : List RE :=
  [ reSeq [.rep .digit 1 (some 2) false, .lit ':', .rep .digit 2 (some 2) false],
    reStr "yarın", reStr "bugün", reStr "saat", reStr "sonra", reStr "gün" ]

/-- `IntentDetector._get_reminder_confidence`: 0.3 per reminder
keyword plus 0.2 per matching time pattern, capped at 1. -/
def reminder_confidence (text : String) : ℚ :=
  let keyword_score : ℚ :=
    (((["hatırlat", "randevu", "toplantı", "etkinlik", "görüşme", "buluşma",
        "yapacak"].countP (fun k => pyIn k text)) : ℚ)) * (3/10)
  let time_score : ℚ :=
    ((reminderTimePatterns.countP (fun r => (research false r text.data).isSome) : ℚ)) * (1/5)
  if keyword_score + time_score ≤ 1 then keyword_score + time_score else 1

/-- `IntentDetector._is_calendar_request`. -/
def is_calendar_request (text : String) : Bool :=
  ["takvim", "ajanda", "program", "calendar"].any (fun k => pyIn k text)

/-- `IntentDetector._is_reset_request`. -/
def is_reset_request (text : String) : Bool :=
  ["yeni konuşma", "sıfırla", "temizle", "baştan", "reset", "yenile"].any
    (fun k => pyIn k text)

/-- `IntentDetector._is_help_request`. -/
def is_help_request (text : String) : Bool :=
  ["yardım", "help", "nasıl", "komut", "ne yapabilir", "?"].any (fun k => pyIn k text)

/-- Python `max(intents, key=lambda x: x[2])`: first element attaining
the maximal confidence (later elements replace only when strictly
greater). -/
def maxByConf (l : List (IntentType × PData × ℚ)) : Option (IntentType × PData × ℚ) :=
  match l with
  | [] => none
  | x :: xs => some (xs.foldl (fun b y => if y.2.2 > b.2.2 then y else b) x)

/-- `IntentDetector.detect_intent` (lines 606-645): empty input maps
to HELP; otherwise candidate intents are collected in priority order
and the highest-confidence one (first on ties) wins, defaulting to
CHAT at confidence 0.3. -/
def detect_intent (text : String) : IntentResult :=
  let text_lower := pyStrip (pyLower text)
  if text_lower = "" then ⟨.HELP, .none, 1⟩
  else
    let intents : List (IntentType × PData × ℚ) :=
      (match detect_financial_intent text with
        | some fr => if fr.confidence > 3/5 then [(.FINANCIAL, .financial fr, fr.confidence)] else []
        | none => []) ++
      (if is_financial_report_request text_lower then [(.FINANCIAL_REPORT, .text text, 4/5)] else []) ++
      (if reminder_confidence text_lower > 1/2 then
        [(.REMINDER, .text text, reminder_confidence text_lower)] else []) ++
      (if is_calendar_request text_lower then [(.CALENDAR, .text text, 9/10)] else []) ++
      (if is_reset_request text_lower then [(.RESET_CHAT, .text text, 9/10)] else []) ++
      (if is_help_request text_lower then [(.HELP, .text text, 9/10)] else [])
    match maxByConf intents with
    | some (i, d, c) => ⟨i, d, c⟩
    | none => ⟨.CHAT, .text text, 3/10⟩

/-! ## `ChatSessionManager` (src/telegram_bot.py, lines 673-716)

The two dictionaries are modelled by insertion-ordered lists: the
session keys (the chat objects themselves are opaque) and the
`last_activity` key/timestamp association. -/

/-- State of a `ChatSessionManager`. -/
structure SessionState where
  sessions : List Int
  lastActivity : List (Int × Int)
  deriving DecidableEq

/-- `ChatSessionManager._remove_session`: pop from both dicts. -/
def removeSession (uid : Int) (s : SessionState) : SessionState :=
  ⟨s.sessions.erase uid, s.lastActivity.eraseP (fun p => p.1 = uid)⟩

/-- `ChatSessionManager._cleanup_old_sessions`: remove every session
whose last activity is older than the cleanup interval. -/
def cleanupOld (interval now : Int) (s : SessionState) : SessionState :=
  let expired := (s.lastActivity.filter (fun p => now - p.2 > interval)).map (·.1)
  expired.foldl (fun st u => removeSession u st) s

/-- Python `min(keys, key=last_activity.get)`: first key attaining the
minimal timestamp over dict iteration order. -/
def minKeyByVal (l : List (Int × Int)) : Option Int :=
  match l with
  | [] => none
  | p :: ps => some (ps.foldl (fun b q => if q.2 < b.2 then q else b) p).1

/-- Dict assignment `last_activity[uid] = now`: update in place when
the key exists, append otherwise. -/
def setActivity (uid now : Int) (l : List (Int × Int)) : List (Int × Int) :=
  if l.any (fun p => p.1 = uid) then
    l.map (fun p => if p.1 = uid then (uid, now) else p)
  else l ++ [(uid, now)]

/-- `ChatSessionManager.get_or_create_session` (lines 681-695): clean
up, evict the least-recently-active session when the cap is reached
and the user is new, insert, and refresh the activity timestamp.  The
`min` over an empty `last_activity` would raise in Python; that branch
is unreachable because the two dicts always hold the same keys. -/
def get_or_create_session (max_sessions : Nat) (interval uid now : Int)
    (s : SessionState) : SessionState :=
  let s1 := cleanupOld interval now s
  let s2 :=
    if s1.sessions.contains uid then s1
    else
      let s' :=
        if max_sessions ≤ s1.sessions.length then
          match minKeyByVal s1.lastActivity with
          | some oldest => removeSession oldest s1
          | none => s1
        else s1
      { s' with sessions := s'.sessions ++ [uid] }
  { s2 with lastActivity := setActivity uid now s2.lastActivity }

/-- The operations a client can perform on a `ChatSessionManager`. -/
inductive SessionOp where
  | getOrCreate (uid now : Int)
  | removeUser (uid : Int)
  | cleanup (now : Int)

/-- One operation step. -/
def sessionStep (max_sessions : Nat) (interval : Int) (s : SessionState) :
    SessionOp → SessionState
  | .getOrCreate uid now => get_or_create_session max_sessions interval uid now s
  | .removeUser uid => removeSession uid s
  | .cleanup now => cleanupOld interval now s

/-- Running a finite sequence of operations from a state. -/
def runOps (max_sessions : Nat) (interval : Int) (ops : List SessionOp)
    (s : SessionState) : SessionState :=
  ops.foldl (sessionStep max_sessions interval) s

/-- The empty initial state of a fresh `ChatSessionManager`. -/
def initialSessionState : SessionState := ⟨[], []⟩

/-! ## Helper lemmas -/

/-- An amount accepted by `validate_amount` is positive and at most
ten million. -/
theorem validate_amount_pos {s : String} {a : ℚ}
    (h : (validate_amount s).1 = some a) : 0 < a ∧ a ≤ 10000000 := by
  simp only [validate_amount] at h
  split at h
  · simp at h
  · rename_i amount
    split at h
    · simp at h
    · split at h
      · simp at h
      · rename_i hle hgt
        simp only [Option.some.injEq] at h
        subst h
        exact ⟨lt_of_not_le hle, le_of_not_lt hgt⟩

/-- Inversion of `detect_financial_intent`: a returned transaction is
built exactly from the amount group and the four classifier helpers. -/
theorem detect_financial_intent_inv {text : String} {tx : FinancialTransaction}
    (h : detect_financial_intent text = some tx) :
    ∃ g a,
      falsePositiveHit (pyStrip (pyLower text)) = false ∧
      amountGroup (pyStrip (pyLower text)) = some g ∧
      (validate_amount (commaDot g)).1 = some a ∧
      tx = ⟨AccountType.ofStr (determine_account_type (pyStrip (pyLower text))),
            TransactionType.ofStr (determine_transaction_type (pyStrip (pyLower text))),
            a,
            determine_category (pyStrip (pyLower text))
              (determine_account_type (pyStrip (pyLower text)))
              (determine_transaction_type (pyStrip (pyLower text))),
            extract_description text (commaDot g),
            calculate_confidence (pyStrip (pyLower text))
              (determine_transaction_type (pyStrip (pyLower text)))
              (determine_account_type (pyStrip (pyLower text)))⟩ := by
  simp only [detect_financial_intent] at h
  split at h
  · simp at h
  · rename_i hfp
    split at h
    · simp at h
    · rename_i g hag
      split at h
      · simp at h
      · rename_i a hva
        split at h
        · simp at h
        · split at h
          · simp at h
          · simp only [Option.some.injEq] at h
            exact ⟨g, a, Bool.not_eq_true _ ▸ Bool.of_not_eq_true hfp, hag, hva, h.symm⟩

/-! ## Claim theorems -/

/-- C1: the spec claims that a bare "HH:MM" time earlier than `now`
(with no "yarın"/"sonra" in the text) is returned rolled forward one
day.  In the code the roll-forward `parsed_time += timedelta(days=1)`
inside `_is_valid_time` rebinds a local name only, so the caller
returns the original past time: at 18:00 the text "09:00 toplantı"
yields the *same-day* 09:00 (32400000000 μs), not the next-day one,
even though 09:00 is earlier than `now` and no marker word occurs. -/
theorem c1_roll_forward_never_escapes :
    parse_time_from_text 64800000000 "09:00 toplantı" =
      (some 32400000000, "toplantı", some "09:00") ∧
    (32400000000 : Int) < 64800000000 ∧
    pyIn "yarın" (pyStrip (pyLower "09:00 toplantı")) = false ∧
    pyIn "sonra" (pyStrip (pyLower "09:00 toplantı")) = false ∧
    (32400000000 : Int) ≠ 32400000000 + usDay := by
  exact ⟨by decide, by decide, by decide, by decide, by decide⟩

/-- C7: every transaction produced by `detect_financial_intent` has a
positive amount, a transaction type in {gelir, gider} and an account
type in {araba, emlak, kisisel}. -/
theorem c7_transaction_invariants {text : String} {tx : FinancialTransaction}
    (h : detect_financial_intent text = some tx) :
    0 < tx.amount ∧
    (tx.transaction_type = TransactionType.gelir ∨
     tx.transaction_type = TransactionType.gider) ∧
    (tx.account_type = AccountType.araba ∨ tx.account_type = AccountType.emlak ∨
     tx.account_type = AccountType.kisisel) := by
  obtain ⟨g, a, _, _, hva, htx⟩ := detect_financial_intent_inv h
  subst htx
  refine ⟨(validate_amount_pos hva).1, ?_, ?_⟩
  · cases TransactionType.ofStr (determine_transaction_type (pyStrip (pyLower text))) <;> simp
  · cases AccountType.ofStr (determine_account_type (pyStrip (pyLower text))) <;> simp

/-- Witness for C7 at the concrete message "50 tl fatura ödedim". -/
theorem c7_transaction_invariants_witness :
    0 < (FinancialTransaction.mk AccountType.kisisel TransactionType.gider 50 "fatura"
          "fatura ödedim" (4/5)).amount ∧
    ((FinancialTransaction.mk AccountType.kisisel TransactionType.gider 50 "fatura"
        "fatura ödedim" (4/5)).transaction_type = TransactionType.gelir ∨
     (FinancialTransaction.mk AccountType.kisisel TransactionType.gider 50 "fatura"
        "fatura ödedim" (4/5)).transaction_type = TransactionType.gider) ∧
    ((FinancialTransaction.mk AccountType.kisisel TransactionType.gider 50 "fatura"
        "fatura ödedim" (4/5)).account_type = AccountType.araba ∨
     (FinancialTransaction.mk AccountType.kisisel TransactionType.gider 50 "fatura"
        "fatura ödedim" (4/5)).account_type = AccountType.emlak ∨
     (FinancialTransaction.mk AccountType.kisisel TransactionType.gider 50 "fatura"
        "fatura ödedim" (4/5)).account_type = AccountType.kisisel) :=
  @c7_transaction_invariants "50 tl fatura ödedim"
    ⟨AccountType.kisisel, TransactionType.gider, 50, "fatura", "fatura ödedim", 4/5⟩
    (by with_unfolding_all decide)

/-- C8: an input whose lowered, stripped form is empty is answered
with the HELP intent at confidence 1 and payload `None` (the early
return of `detect_intent` before any analyzer or pattern runs). -/
theorem c8_empty_input_help {text : String}
    (h : pyStrip (pyLower text) = "") :
    detect_intent text = ⟨IntentType.HELP, PData.none, 1⟩ := by
  simp only [detect_intent, h, if_pos]

/-- Witness for C8 at the whitespace-only input. -/
theorem c8_empty_input_help_witness :
    detect_intent "  \t " = ⟨IntentType.HELP, PData.none, 1⟩ :=
  c8_empty_input_help (by decide)

/-- C2, counterexample: the message "20000000 TL kazandım" contains
the amount pattern "20000000 TL" with 20000000 > 0, an income keyword
("kazandım") and no expense keyword, yet `detect_financial_intent`
rejects it (the validator's ten-million cap), so no income transaction
of that amount is returned. -/
theorem c2_counterexample :
    detect_financial_intent "20000000 TL kazandım" = none ∧
    amountGroup (pyStrip (pyLower "20000000 TL kazandım")) = some "20000000" ∧
    income_keywords.any (fun k => pyIn k (pyStrip (pyLower "20000000 TL kazandım"))) = true ∧
    expense_keywords.any (fun k => pyIn k (pyStrip (pyLower "20000000 TL kazandım"))) = false ∧
    (0 : ℚ) < 20000000 := by
  exact ⟨by decide, by decide, by decide, by decide, by decide⟩

/-- C4, counterexample: "100 TL" contains the currency-amount pattern,
but the parsed transaction only reaches confidence 0.5 ≤ 0.6, so
`detect_intent` classifies the message as CHAT, not FINANCIAL. -/
theorem c4_counterexample :
    amountGroup (pyStrip (pyLower "100 TL")) = some "100" ∧
    detect_intent "100 TL" =
      ⟨IntentType.CHAT, PData.text "100 TL", 3/10⟩ ∧
    IntentType.CHAT ≠ IntentType.FINANCIAL := by
  exact ⟨by decide, by with_unfolding_all decide, by decide⟩

/-- C3: when income and expense keyword counts tie and none of the
four tie-break context words occurs, a recognized transaction is
classified as an expense. -/
theorem c3_tie_defaults_to_expense {text : String} {tx : FinancialTransaction}
    (h : detect_financial_intent text = some tx)
    (htie : incomeScore (pyStrip (pyLower text)) = expenseScore (pyStrip (pyLower text)))
    (hctx : tieContextWords.any (fun w => pyIn w (pyStrip (pyLower text))) = false) :
    tx.transaction_type = TransactionType.gider := by
  obtain ⟨g, a, _, _, _, htx⟩ := detect_financial_intent_inv h
  subst htx
  show TransactionType.ofStr (determine_transaction_type (pyStrip (pyLower text))) = _
  unfold determine_transaction_type
  rw [htie, if_neg (lt_irrefl _), if_neg (lt_irrefl _), hctx]
  simp [TransactionType.ofStr]

/-- Witness for C3 at "100 tl taksi" (no income or expense keyword,
no context word). -/
theorem c3_tie_defaults_to_expense_witness :
    (FinancialTransaction.mk AccountType.kisisel TransactionType.gider 100 "diğer"
      "taksi" (1/2)).transaction_type = TransactionType.gider :=
  @c3_tie_defaults_to_expense "100 tl taksi"
    ⟨AccountType.kisisel, TransactionType.gider, 100, "diğer", "taksi", 1/2⟩
    (by with_unfolding_all decide) (by decide) (by decide)

/-- C2 (amended): when the lowered, stripped message passes the
false-positive filter, its first amount match parses to a value the
validator accepts (so `0 < a ≤ 10^7`), and an income keyword but no
expense keyword occurs, the detector returns an income transaction of
exactly that amount. -/
theorem c2_amended_income_classification {text g : String} {a : ℚ}
    (hfp : falsePositiveHit (pyStrip (pyLower text)) = false)
    (hag : amountGroup (pyStrip (pyLower text)) = some g)
    (hva : (validate_amount (commaDot g)).1 = some a)
    (hinc : income_keywords.any (fun k => pyIn k (pyStrip (pyLower text))) = true)
    (hexp : expense_keywords.any (fun k => pyIn k (pyStrip (pyLower text))) = false) :
    ∃ tx, detect_financial_intent text = some tx ∧
      tx.transaction_type = TransactionType.gelir ∧ tx.amount = a := by
  have ha0 : a ≠ 0 := ne_of_gt (validate_amount_pos hva).1
  have hinc' : 0 < incomeScore (pyStrip (pyLower text)) := by
    unfold incomeScore
    rw [List.countP_pos_iff]
    obtain ⟨k, hk, hpk⟩ := List.any_eq_true.mp hinc
    exact ⟨k, hk, hpk⟩
  have hexp' : expenseScore (pyStrip (pyLower text)) = 0 := by
    unfold expenseScore
    rw [List.countP_eq_zero]
    intro k hk
    rw [List.any_eq_false] at hexp
    exact fun hc => hexp k hk hc
  have htt : determine_transaction_type (pyStrip (pyLower text)) = "gelir" := by
    unfold determine_transaction_type
    rw [if_pos (hexp' ▸ hinc')]
  refine ⟨⟨AccountType.ofStr (determine_account_type (pyStrip (pyLower text))),
          TransactionType.ofStr (determine_transaction_type (pyStrip (pyLower text))),
          a,
          determine_category (pyStrip (pyLower text))
            (determine_account_type (pyStrip (pyLower text)))
            (determine_transaction_type (pyStrip (pyLower text))),
          extract_description text (commaDot g),
          calculate_confidence (pyStrip (pyLower text))
            (determine_transaction_type (pyStrip (pyLower text)))
            (determine_account_type (pyStrip (pyLower text)))⟩, ?_, ?_, rfl⟩
  · simp only [detect_financial_intent, hfp, hag, hva, Bool.false_eq_true,
      if_false, if_neg ha0]
    rw [if_neg (by rw [htt]; decide)]
  · rw [htt]
    rfl

/-- Witness for C2 (amended) at "100 TL kazandım". -/
theorem c2_amended_income_classification_witness :
    ∃ tx, detect_financial_intent "100 TL kazandım" = some tx ∧
      tx.transaction_type = TransactionType.gelir ∧ tx.amount = 100 :=
  @c2_amended_income_classification "100 TL kazandım" "100" 100
    (by decide) (by decide) (by decide) (by decide) (by decide)

/-- Lengths never grow under stripping. -/
theorem pyStripList_length_le (l : List Char) : (pyStripList l).length ≤ l.length := by
  unfold pyStripList
  calc ((l.dropWhile pyIsSpace).reverse.dropWhile pyIsSpace).reverse.length
      = ((l.dropWhile pyIsSpace).reverse.dropWhile pyIsSpace).length := by
        rw [List.length_reverse]
    _ ≤ (l.dropWhile pyIsSpace).reverse.length :=
        (List.dropWhile_sublist pyIsSpace).length_le
    _ = (l.dropWhile pyIsSpace).length := by rw [List.length_reverse]
    _ ≤ l.length := (List.dropWhile_sublist pyIsSpace).length_le

/-- Stripping only removes characters. -/
theorem pyStripList_subset {l : List Char} : ∀ c ∈ pyStripList l, c ∈ l := by
  intro c hc
  unfold pyStripList at hc
  rw [List.mem_reverse] at hc
  have h1 := (List.dropWhile_sublist (l := (l.dropWhile pyIsSpace).reverse)
    (p := pyIsSpace)).subset hc
  rw [List.mem_reverse] at h1
  exact (List.dropWhile_sublist (l := l) (p := pyIsSpace)).subset h1

/-- The sanitized description is at most 200 characters long. -/
theorem sanitize_description_length_le (s : String) :
    (sanitize_description s).length ≤ 200 := by
  unfold sanitize_description pyStrip
  show (pyStripList _).length ≤ 200
  calc (pyStripList ((s.data.filter fun c => ¬ isBadChar c).take 200)).length
      ≤ ((s.data.filter fun c => ¬ isBadChar c).take 200).length :=
        pyStripList_length_le _
    _ ≤ 200 := List.length_take_le _ _

/-- The sanitized description contains no dangerous character. -/
theorem sanitize_description_no_bad (s : String) :
    ∀ c ∈ (sanitize_description s).data, ¬ isBadChar c = true := by
  intro c hc
  unfold sanitize_description pyStrip at hc
  have h1 := pyStripList_subset _ hc
  have h2 := List.take_subset _ _ h1
  have h3 := List.mem_filter.mp h2
  simpa using h3.2

/-- Every description produced by `_extract_description` is nonempty,
at most 200 characters, and free of dangerous characters. -/
theorem extract_description_props (text s : String) :
    extract_description text s ≠ "" ∧
    (extract_description text s).length ≤ 200 ∧
    ∀ c ∈ (extract_description text s).data, ¬ isBadChar c = true := by
  unfold extract_description
  by_cases hempty :
      sanitize_description (pyStrip (collapseWS
        (reSub true (reSeq [reStr s, .rep .space 0 none false, reStr "tl"]) text))) = ""
  · rw [if_pos hempty]
    exact ⟨by decide, by decide, by decide⟩
  · rw [if_neg hempty]
    exact ⟨hempty, sanitize_description_length_le _, sanitize_description_no_bad _⟩

/-- C9: the description of every returned transaction is nonempty
(defaulting to "İşlem"), at most 200 characters long, and contains
none of the dangerous characters `< > " ' `` \n \r \t`. -/
theorem c9_description_invariants {text : String} {tx : FinancialTransaction}
    (h : detect_financial_intent text = some tx) :
    tx.description ≠ "" ∧ tx.description.length ≤ 200 ∧
    ∀ c ∈ tx.description.data, ¬ isBadChar c = true := by
  obtain ⟨g, a, _, _, _, htx⟩ := detect_financial_intent_inv h
  have hd : tx.description = extract_description text (commaDot g) := by rw [htx]
  rw [hd]
  exact extract_description_props text (commaDot g)

set_option maxHeartbeats 2000000 in
/-- Witness for C9 at "99 tl kazandım" (description "kazandım"). -/
theorem c9_description_invariants_witness :
    ("kazandım" : String) ≠ "" ∧ ("kazandım" : String).length ≤ 200 ∧
    ∀ c ∈ ("kazandım" : String).data, ¬ isBadChar c = true := by
  have h := @c9_description_invariants "99 tl kazandım"
    ⟨AccountType.kisisel, TransactionType.gelir, 99, "diğer", "kazandım", 4/5⟩
    (by with_unfolding_all decide)
  exact h

/-- A pattern whose regex does not match contributes nothing to the
pattern loop. -/
theorem tryPattern_none {now : Int} {text tl : String} {tp : TimePattern}
    (h : research false tp.re tl.data = none) : tryPattern now text tl tp = none := by
  unfold tryPattern
  rw [h]

/-- Pattern 1 matched against the lowered C5 message. -/
theorem c5_search_eq :
    research false tpTomorrowWithTime.re
      (pyStrip (pyLower "yarın saat 14:30 toplantı")).data =
    some (0, 16, [(2, ['3', '0']), (1, ['1', '4'])]) := by
  decide

/-- Evaluation of the first pattern on the C5 message, for every
current time. -/
theorem c5_tryPattern_eq (now : Int) :
    tryPattern now "yarın saat 14:30 toplantı"
      (pyStrip (pyLower "yarın saat 14:30 toplantı")) tpTomorrowWithTime =
    some (now + usDay - (now + usDay) % usDay + 14 * usHour + 30 * usMin,
          "toplantı", "yarın saat 14:30") := by
  have h1 : tomorrow_with_time now [(2, ['3', '0']), (1, ['1', '4'])] =
      some (now + usDay - (now + usDay) % usDay + 14 * usHour + 30 * usMin) := by
    unfold tomorrow_with_time replaceHM
    rw [show digitsVal (groupChars [(2, ['3', '0']), (1, ['1', '4'])] 1) = 14 from by decide,
        show digitsVal (groupChars [(2, ['3', '0']), (1, ['1', '4'])] 2) = 30 from by decide,
        if_pos (by exact ⟨by decide, by decide⟩)]
    norm_num
  have h2 : is_valid_time
      (now + usDay - (now + usDay) % usDay + 14 * usHour + 30 * usMin) now
      (pyStrip (pyLower "yarın saat 14:30 toplantı")) = true := by
    simp only [is_valid_time,
      show pyIn "yarın" (pyStrip (pyLower "yarın saat 14:30 toplantı")) = true from by decide,
      eq_self_iff_true, not_true, false_and, and_false, if_false]
    rw [if_neg (by simp only [usDay, usHour, usMin]; omega)]
    simp only [decide_eq_true_eq, hourOf, minuteOf, usDay, usHour, usMin]
    omega
  simp only [tryPattern, c5_search_eq,
    show tpTomorrowWithTime.func = tomorrow_with_time from rfl, h1, h2,
    eq_self_iff_true, if_true]
  refine congrArg some ?_
  simp only [Prod.mk.injEq]
  exact ⟨trivial, by decide, by decide⟩

/-- C5: for every current time, "yarın saat 14:30 toplantı" parses to
tomorrow at 14:30:00.000000 with residual message "toplantı" and
matched substring "yarın saat 14:30". -/
theorem c5_tomorrow_explicit_time (now : Int) :
    ∃ t, parse_time_from_text now "yarın saat 14:30 toplantı" =
        (some t, "toplantı", some "yarın saat 14:30") ∧
      t / usDay = now / usDay + 1 ∧
      t % usDay = 14 * usHour + 30 * usMin := by
  refine ⟨now + usDay - (now + usDay) % usDay + 14 * usHour + 30 * usMin,
    ?_, ?_, ?_⟩
  · simp only [parse_time_from_text, timePatterns, List.findSome?_cons, c5_tryPattern_eq now]
  · simp only [usDay, usHour, usMin]
    omega
  · simp only [usDay, usHour, usMin]
    omega

/-- C6: for every current time, "2 saat sonra alışveriş" parses to
`now + 2` hours (no day roll-forward on this relative pattern), with
residual message "alışveriş" and matched substring "2 saat sonra". -/
theorem c6_hours_later_relative (now : Int) :
    parse_time_from_text now "2 saat sonra alışveriş" =
      (some (now + 2 * usHour), "alışveriş", some "2 saat sonra") := by
  have e1 : research false tpTomorrowWithTime.re
      (pyStrip (pyLower "2 saat sonra alışveriş")).data = none := by decide
  have e2 : research false tpTodayWithTime.re
      (pyStrip (pyLower "2 saat sonra alışveriş")).data = none := by decide
  have e3 : research false tpTimeOnly.re
      (pyStrip (pyLower "2 saat sonra alışveriş")).data = none := by decide
  have e4 : research false tpTomorrowHour.re
      (pyStrip (pyLower "2 saat sonra alışveriş")).data = none := by decide
  have e5 : research false tpTodayHour.re
      (pyStrip (pyLower "2 saat sonra alışveriş")).data = none := by decide
  have e6 : research false tpHourOnly.re
      (pyStrip (pyLower "2 saat sonra alışveriş")).data = none := by decide
  have e7 : research false tpHoursLater.re
      (pyStrip (pyLower "2 saat sonra alışveriş")).data =
      some (0, 12, [(1, ['2'])]) := by decide
  have h1 : hours_later now [(1, ['2'])] = some (now + 2 * usHour) := by
    unfold hours_later
    rw [show digitsVal (groupChars [(1, ['2'])] 1) = 2 from by decide]
    norm_num
  have h2 : is_valid_time (now + 2 * usHour) now
      (pyStrip (pyLower "2 saat sonra alışveriş")) = true := by
    simp only [is_valid_time,
      show pyIn "sonra" (pyStrip (pyLower "2 saat sonra alışveriş")) = true from by decide,
      eq_self_iff_true, not_true, false_and, and_false, if_false]
    rw [if_neg (by simp only [usDay, usHour, usMin]; omega)]
    simp only [decide_eq_true_eq, hourOf, minuteOf, usDay, usHour, usMin]
    omega
  simp only [parse_time_from_text, timePatterns, List.findSome?_cons, tryPattern,
    e1, e2, e3, e4, e5, e6, e7, show tpHoursLater.func = hours_later from rfl, h1, h2,
    eq_self_iff_true, if_true]
  simp only [Prod.mk.injEq]
  exact ⟨trivial, by decide, by decide⟩

/-- A recognized financial message is nonempty after lowering and
stripping (its amount pattern matched). -/
theorem detect_financial_nonempty {text : String} {tx : FinancialTransaction}
    (h : detect_financial_intent text = some tx) :
    pyStrip (pyLower text) ≠ "" := by
  intro heq
  obtain ⟨g, a, _, hag, _, _⟩ := detect_financial_intent_inv h
  rw [heq, show amountGroup "" = none from by decide] at hag
  exact Option.noConfusion hag

/-- Python `max` keeps the first element when no later candidate is
strictly better. -/
theorem maxByConf_head {x : IntentType × PData × ℚ} {xs : List (IntentType × PData × ℚ)}
    (h : ∀ y ∈ xs, y.2.2 ≤ x.2.2) : maxByConf (x :: xs) = some x := by
  simp only [maxByConf]
  have aux : ∀ (ys : List (IntentType × PData × ℚ)) (b : IntentType × PData × ℚ),
      (∀ y ∈ ys, y.2.2 ≤ b.2.2) →
      ys.foldl (fun b y => if y.2.2 > b.2.2 then y else b) b = b := by
    intro ys
    induction ys with
    | nil => intro b _; rfl
    | cons y ys ih =>
      intro b hb
      have hy : ¬ y.2.2 > b.2.2 := not_lt_of_le (hb y (List.mem_cons_self _ _))
      show List.foldl _ (if y.2.2 > b.2.2 then y else b) ys = b
      rw [if_neg hy]
      exact ih b (fun z hz => hb z (List.mem_cons_of_mem _ hz))
  rw [aux xs x h]

/-- Membership in a conditional singleton list. -/
theorem mem_ite_singleton {α : Type} {b : Prop} [Decidable b] {e y : α}
    (h : y ∈ (if b then [e] else [])) : b ∧ y = e := by
  split at h
  · rename_i hb
    exact ⟨hb, by simpa using h⟩
  · simp at h

set_option maxHeartbeats 4000000 in
/-- C4 (amended): a message whose financial analysis succeeds with
confidence above 0.6 is classified FINANCIAL provided no competing
intent (report, reminder, calendar, reset, help) reaches a strictly
higher confidence; the financial candidate wins ties because it is
considered first. -/
theorem c4_amended_financial_priority {text : String} {tx : FinancialTransaction}
    (h : detect_financial_intent text = some tx)
    (hc : tx.confidence > 3/5)
    (hrep : is_financial_report_request (pyStrip (pyLower text)) = true →
      (4/5 : ℚ) ≤ tx.confidence)
    (hrem : reminder_confidence (pyStrip (pyLower text)) > 1/2 →
      reminder_confidence (pyStrip (pyLower text)) ≤ tx.confidence)
    (hcal : is_calendar_request (pyStrip (pyLower text)) = true →
      (9/10 : ℚ) ≤ tx.confidence)
    (hres : is_reset_request (pyStrip (pyLower text)) = true →
      (9/10 : ℚ) ≤ tx.confidence)
    (hhelp : is_help_request (pyStrip (pyLower text)) = true →
      (9/10 : ℚ) ≤ tx.confidence) :
    detect_intent text = ⟨IntentType.FINANCIAL, PData.financial tx, tx.confidence⟩ := by
  have hne : pyStrip (pyLower text) ≠ "" := detect_financial_nonempty h
  have hbound : ∀ y ∈
      ((if is_financial_report_request (pyStrip (pyLower text)) then
          [(IntentType.FINANCIAL_REPORT, PData.text text, (4/5 : ℚ))] else []) ++
       ((if reminder_confidence (pyStrip (pyLower text)) > 1/2 then
          [(IntentType.REMINDER, PData.text text, reminder_confidence (pyStrip (pyLower text)))] else []) ++
        ((if is_calendar_request (pyStrip (pyLower text)) then
          [(IntentType.CALENDAR, PData.text text, (9/10 : ℚ))] else []) ++
         ((if is_reset_request (pyStrip (pyLower text)) then
          [(IntentType.RESET_CHAT, PData.text text, (9/10 : ℚ))] else []) ++
          (if is_help_request (pyStrip (pyLower text)) then
          [(IntentType.HELP, PData.text text, (9/10 : ℚ))] else []))))),
      y.2.2 ≤ tx.confidence := by
    intro y hy
    rcases List.mem_append.mp hy with hy | hy
    · obtain ⟨hb, rfl⟩ := mem_ite_singleton hy
      exact hrep hb
    rcases List.mem_append.mp hy with hy | hy
    · obtain ⟨hb, rfl⟩ := mem_ite_singleton hy
      exact hrem hb
    rcases List.mem_append.mp hy with hy | hy
    · obtain ⟨hb, rfl⟩ := mem_ite_singleton hy
      exact hcal hb
    rcases List.mem_append.mp hy with hy | hy
    · obtain ⟨hb, rfl⟩ := mem_ite_singleton hy
      exact hres hb
    · obtain ⟨hb, rfl⟩ := mem_ite_singleton hy
      exact hhelp hb
  simp only [detect_intent, eq_false hne, if_false, h, eq_true hc, if_true,
    List.singleton_append, List.cons_append, List.append_assoc]
  rw [maxByConf_head hbound]

set_option maxHeartbeats 2000000 in
set_option maxRecDepth 1024 in
/-- Witness for C4 (amended) at "5 tl ev aldım" (confidence 1). -/
theorem c4_amended_financial_priority_witness :
    detect_intent "5 tl ev aldım" =
      ⟨IntentType.FINANCIAL,
       PData.financial ⟨AccountType.emlak, TransactionType.gider, 5, "diğer",
         "ev aldım", 1⟩, 1⟩ :=
  @c4_amended_financial_priority "5 tl ev aldım"
    ⟨AccountType.emlak, TransactionType.gider, 5, "diğer", "ev aldım", 1⟩
    (by with_unfolding_all decide) (by with_unfolding_all decide)
    (by with_unfolding_all decide) (by with_unfolding_all decide)
    (by with_unfolding_all decide) (by with_unfolding_all decide)
    (by with_unfolding_all decide)

/-- Invariant tying the two dictionaries of a `ChatSessionManager`
together: no duplicate session keys, no duplicate activity keys, the
same key sets, and the session count within the cap. -/
def SessInv (max_sessions : Nat) (s : SessionState) : Prop :=
  s.sessions.Nodup ∧ (s.lastActivity.map Prod.fst).Nodup ∧
  (∀ u : Int, u ∈ s.sessions ↔ u ∈ s.lastActivity.map Prod.fst) ∧
  s.sessions.length ≤ max_sessions

/-- Erasing one activity entry by key, described on the key list
(requires distinct keys). -/
theorem keys_eraseP {l : List (Int × Int)} {uid : Int}
    (hn : (l.map Prod.fst).Nodup) :
    ((l.eraseP (fun p => p.1 = uid)).map Prod.fst).Nodup ∧
    (∀ u : Int, u ∈ (l.eraseP (fun p => p.1 = uid)).map Prod.fst ↔
      (u ≠ uid ∧ u ∈ l.map Prod.fst)) := by
  induction l with
  | nil => exact ⟨List.nodup_nil, by simp⟩
  | cons q t ih =>
    simp only [List.map_cons, List.nodup_cons] at hn
    obtain ⟨hq, hnt⟩ := hn
    by_cases hquid : q.1 = uid
    · rw [List.eraseP_cons_of_pos (by simp [hquid])]
      refine ⟨hnt, fun u => ?_⟩
      simp only [List.map_cons, List.mem_cons]
      constructor
      · intro hu
        refine ⟨fun he => hq ?_, Or.inr hu⟩
        rw [← hquid] at he
        exact he ▸ hu
      · rintro ⟨hne, hu | hu⟩
        · exact absurd (hu.trans hquid) hne
        · exact hu
    · rw [List.eraseP_cons_of_neg (by simp [hquid])]
      obtain ⟨ihn, ihm⟩ := ih hnt
      refine ⟨?_, fun u => ?_⟩
      · simp only [List.map_cons, List.nodup_cons]
        exact ⟨fun hc => hq ((ihm q.1).mp hc).2, ihn⟩
      · simp only [List.map_cons, List.mem_cons, ihm u]
        constructor
        · rintro (rfl | ⟨hne, hu⟩)
          · exact ⟨hquid, Or.inl rfl⟩
          · exact ⟨hne, Or.inr hu⟩
        · rintro ⟨hne, rfl | hu⟩
          · exact Or.inl rfl
          · exact Or.inr ⟨hne, hu⟩

/-- `_remove_session` preserves the invariant (and cannot grow the
session count). -/
theorem removeSession_inv {max_sessions : Nat} {s : SessionState} {uid : Int}
    (h : SessInv max_sessions s) : SessInv max_sessions (removeSession uid s) := by
  obtain ⟨hs, hl, hiff, hlen⟩ := h
  obtain ⟨hl', hm'⟩ := @keys_eraseP s.lastActivity uid hl
  refine ⟨hs.erase uid, hl', fun u => ?_, le_trans (List.length_erase_le _ _) hlen⟩
  show u ∈ s.sessions.erase uid ↔
    u ∈ (s.lastActivity.eraseP (fun p => p.1 = uid)).map Prod.fst
  rw [hs.mem_erase_iff, hm' u, hiff u]

/-- `_cleanup_old_sessions` preserves the invariant. -/
theorem cleanupOld_inv {max_sessions : Nat} {interval now : Int} {s : SessionState}
    (h : SessInv max_sessions s) : SessInv max_sessions (cleanupOld interval now s) := by
  unfold cleanupOld
  generalize ((s.lastActivity.filter (fun p => now - p.2 > interval)).map (·.1)) = us
  induction us generalizing s with
  | nil => exact h
  | cons u us ih => exact ih (removeSession_inv h)

/-- The first minimal key returned by `min` is one of the keys. -/
theorem minKeyByVal_mem {l : List (Int × Int)} {k : Int}
    (hl : l ≠ []) (h : minKeyByVal l = some k) : k ∈ l.map Prod.fst := by
  match l, hl with
  | p :: ps, _ =>
    have aux : ∀ (qs : List (Int × Int)) (b : Int × Int),
        qs.foldl (fun b q => if q.2 < b.2 then q else b) b ∈ b :: qs := by
      intro qs
      induction qs with
      | nil => intro b; exact List.mem_cons_self _ _
      | cons q t ih =>
        intro b
        show List.foldl _ (if q.2 < b.2 then q else b) t ∈ _
        rcases List.mem_cons.mp (ih (if q.2 < b.2 then q else b)) with hh | hh
        · rw [hh]
          split
          · exact List.mem_cons_of_mem _ (List.mem_cons_self _ _)
          · exact List.mem_cons_self _ _
        · exact List.mem_cons_of_mem _ (List.mem_cons_of_mem _ hh)
    simp only [minKeyByVal, Option.some.injEq] at h
    exact h ▸ List.mem_map_of_mem Prod.fst (aux ps p)

/-- Updating the activity timestamp of a present key keeps the key
list; adding a fresh key appends it. -/
theorem keys_setActivity (uid now : Int) (l : List (Int × Int)) :
    (uid ∈ l.map Prod.fst → (setActivity uid now l).map Prod.fst = l.map Prod.fst) ∧
    (uid ∉ l.map Prod.fst →
      (setActivity uid now l).map Prod.fst = l.map Prod.fst ++ [uid]) := by
  constructor
  · intro hmem
    have hany : l.any (fun p => p.1 = uid) = true := by
      rw [List.any_eq_true]
      obtain ⟨p, hp, hfst⟩ := List.mem_map.mp hmem
      exact ⟨p, hp, by simp [hfst]⟩
    unfold setActivity
    rw [if_pos hany, List.map_map]
    refine List.map_congr_left (fun p hp => ?_)
    by_cases hpe : p.1 = uid
    · simp [Function.comp, hpe]
    · simp [Function.comp, hpe]
  · intro hmem
    have hany : l.any (fun p => p.1 = uid) = false := by
      rw [List.any_eq_false]
      intro p hp
      simp only [decide_eq_true_eq]
      exact fun he => hmem (List.mem_map.mpr ⟨p, hp, he⟩)
    unfold setActivity
    rw [if_neg (by simp [hany]), List.map_append]
    rfl

/-- `get_or_create_session` preserves the invariant whenever the cap
is at least one. -/
theorem get_or_create_session_inv {max_sessions : Nat} {interval uid now : Int}
    {s : SessionState} (hmax : 1 ≤ max_sessions) (h : SessInv max_sessions s) :
    SessInv max_sessions (get_or_create_session max_sessions interval uid now s) := by
  simp only [get_or_create_session]
  set s1 := cleanupOld interval now s with hs1
  have h1 : SessInv max_sessions s1 := cleanupOld_inv h
  obtain ⟨hnd, hka, hiff, hlen⟩ := h1
  by_cases hmem : s1.sessions.contains uid = true
  · rw [if_pos hmem]
    have hmemm : uid ∈ s1.sessions := by
      simpa [List.contains, List.elem_iff] using hmem
    have hmem' : uid ∈ s1.lastActivity.map Prod.fst := (hiff uid).mp hmemm
    have hkeys := (keys_setActivity uid now s1.lastActivity).1 hmem'
    refine ⟨hnd, ?_, ?_, hlen⟩
    · show ((setActivity uid now s1.lastActivity).map Prod.fst).Nodup
      rw [hkeys]
      exact hka
    · intro u
      show u ∈ s1.sessions ↔ u ∈ (setActivity uid now s1.lastActivity).map Prod.fst
      rw [hkeys]
      exact hiff u
  · rw [if_neg hmem]
    have hnotmem : uid ∉ s1.sessions := by
      intro hc
      exact hmem (by simpa [List.contains, List.elem_iff] using hc)
    by_cases hfull : max_sessions ≤ s1.sessions.length
    · rw [if_pos hfull]
      have hne : s1.sessions ≠ [] := by
        intro hnil
        rw [hnil] at hfull
        simp only [List.length_nil, Nat.le_zero] at hfull
        omega
      have hlane : s1.lastActivity ≠ [] := by
        intro hnil
        obtain ⟨v, hv⟩ := List.exists_mem_of_ne_nil _ hne
        have hvk := (hiff v).mp hv
        rw [hnil] at hvk
        simp at hvk
      obtain ⟨oldest, holdest⟩ : ∃ k, minKeyByVal s1.lastActivity = some k := by
        match hh : s1.lastActivity, hlane with
        | p :: ps, _ => exact ⟨_, rfl⟩
      rw [holdest]
      have holdmem : oldest ∈ s1.sessions :=
        (hiff oldest).mpr (minKeyByVal_mem hlane holdest)
      have h2 : SessInv max_sessions (removeSession oldest s1) :=
        removeSession_inv ⟨hnd, hka, hiff, hlen⟩
      obtain ⟨hnd2, hka2, hiff2, _⟩ := h2
      have hlen2 : (removeSession oldest s1).sessions.length =
          s1.sessions.length - 1 := by
        show (s1.sessions.erase oldest).length = _
        exact List.length_erase_of_mem holdmem
      have hnotmem2 : uid ∉ (removeSession oldest s1).sessions := by
        intro hc
        exact hnotmem ((hnd.mem_erase_iff.mp hc).2)
      have hnotkey2 : uid ∉ (removeSession oldest s1).lastActivity.map Prod.fst :=
        fun hc => hnotmem2 ((hiff2 uid).mpr hc)
      have hkeys :=
        (keys_setActivity uid now (removeSession oldest s1).lastActivity).2 hnotkey2
      refine ⟨?_, ?_, ?_, ?_⟩
      · refine List.nodup_append.mpr ⟨hnd2, List.nodup_singleton _, ?_⟩
        intro x hx hx'
        rw [List.mem_singleton] at hx'
        exact hnotmem2 (hx' ▸ hx)
      · show ((setActivity uid now (removeSession oldest s1).lastActivity).map
          Prod.fst).Nodup
        rw [hkeys]
        refine List.nodup_append.mpr ⟨hka2, List.nodup_singleton _, ?_⟩
        intro x hx hx'
        rw [List.mem_singleton] at hx'
        exact hnotkey2 (hx' ▸ hx)
      · intro u
        show u ∈ (removeSession oldest s1).sessions ++ [uid] ↔
          u ∈ (setActivity uid now (removeSession oldest s1).lastActivity).map Prod.fst
        rw [hkeys]
        simp only [List.mem_append, List.mem_singleton]
        rw [hiff2 u]
      · show ((removeSession oldest s1).sessions ++ [uid]).length ≤ max_sessions
        simp only [List.length_append, List.length_singleton]
        omega
    · rw [if_neg hfull]
      have hnotkey : uid ∉ s1.lastActivity.map Prod.fst :=
        fun hc => hnotmem ((hiff uid).mpr hc)
      have hkeys := (keys_setActivity uid now s1.lastActivity).2 hnotkey
      refine ⟨?_, ?_, ?_, ?_⟩
      · refine List.nodup_append.mpr ⟨hnd, List.nodup_singleton _, ?_⟩
        intro x hx hx'
        rw [List.mem_singleton] at hx'
        exact hnotmem (hx' ▸ hx)
      · show ((setActivity uid now s1.lastActivity).map Prod.fst).Nodup
        rw [hkeys]
        refine List.nodup_append.mpr ⟨hka, List.nodup_singleton _, ?_⟩
        intro x hx hx'
        rw [List.mem_singleton] at hx'
        exact hnotkey (hx' ▸ hx)
      · intro u
        show u ∈ s1.sessions ++ [uid] ↔
          u ∈ (setActivity uid now s1.lastActivity).map Prod.fst
        rw [hkeys]
        simp only [List.mem_append, List.mem_singleton]
        rw [hiff u]
      · show (s1.sessions ++ [uid]).length ≤ max_sessions
        simp only [List.length_append, List.length_singleton]
        omega

/-- C10: starting from the empty state, any finite sequence of
`get_or_create_session`, `remove_session` and cleanup operations keeps
the number of stored sessions within `max_sessions` (for a cap of at
least one; a new session evicts the least-recently-active entry when
the cap is reached). -/
theorem c10_session_cap (max_sessions : Nat) (interval : Int) (ops : List SessionOp)
    (hmax : 1 ≤ max_sessions) :
    (runOps max_sessions interval ops initialSessionState).sessions.length ≤
      max_sessions := by
  suffices aux : ∀ (s : SessionState), SessInv max_sessions s →
      SessInv max_sessions (List.foldl (sessionStep max_sessions interval) s ops) by
    have hinit : SessInv max_sessions initialSessionState :=
      ⟨List.nodup_nil, by simp [initialSessionState], by simp [initialSessionState],
       by simp [initialSessionState]⟩
    exact (aux initialSessionState hinit).2.2.2
  induction ops with
  | nil => exact fun s hs => hs
  | cons op rest ih =>
    intro s hs
    refine ih _ ?_
    cases op with
    | getOrCreate uid now => exact get_or_create_session_inv hmax hs
    | removeUser uid => exact removeSession_inv hs
    | cleanup now => exact cleanupOld_inv hs

/-- Witness for C10: a cap of one with two distinct users ends with a
single stored session. -/
theorem c10_session_cap_witness :
    (runOps 1 1000 [SessionOp.getOrCreate 1 5, SessionOp.getOrCreate 2 6]
      initialSessionState).sessions.length ≤ 1 :=
  c10_session_cap 1 1000 [SessionOp.getOrCreate 1 5, SessionOp.getOrCreate 2 6]
    (by decide)
